import Mathlib

/-!
Verification development for the `claude-code-schedule` CLI
(sources: `src/main.rs`, `src/logger.rs`).

Shallow embedding conventions:
* Local wall-clock instants are modelled as `Nat` — seconds since an
  arbitrary epoch midnight, with no DST transitions (a fixed-offset local
  time zone).  `chrono`'s `with_hour/with_minute/with_second/with_nanosecond`
  pipeline and `+ Duration::days(1)` become plain arithmetic on seconds.
  The source compares instants whose sub-second part has been zeroed, so
  second-granularity `Nat` comparison agrees with chrono's nanosecond
  comparison at every comparison the program performs.
* Strings are Lean `String`s; character-level work is done on `List Char`
  (`String.data`), matching byte-oblivious UTF-8 handling in the source.
* The external `claude` subprocess is an oracle
  `String → List String → Option CmdOutput` (`None` = spawn failure).
* Side effects (console output, file writes, process exit) are reified as
  an `Effect` trace; fallible operations take Boolean success oracles.
-/

/-! ## Decimal digits and number rendering -/

/-- Is `c` an ASCII decimal digit?  (Rust `char::is_ascii_digit`, and the
character class accepted by `str::parse::<u32>`). -/
def isDigitChar (c : Char) : Bool :=
  48 ≤ c.toNat && c.toNat ≤ 57

/-- The ASCII character of the decimal digit `d` (for `d < 10`). -/
def decDigit (d : Nat) : Char :=
  Char.ofNat (48 + d)

/-- Decimal rendering of a `Nat`, most significant digit first — the digit
sequence produced by Rust's `Display` for unsigned integers. -/
def renderNat (n : Nat) : List Char :=
  if _h : n < 10 then [decDigit n]
  else renderNat (n / 10) ++ [decDigit (n % 10)]
decreasing_by exact Nat.div_lt_self (by omega) (by omega)

/-- Decimal rendering of a `Nat` as a `String`. -/
def natStr (n : Nat) : String :=
  ⟨renderNat n⟩

/-- Value of a list of decimal digit characters, most significant first. -/
def digitsVal (ds : List Char) : Nat :=
  ds.foldl (fun a c => a * 10 + (c.toNat - 48)) 0

/-! ## Time model (`ScheduleClock`)

`main.rs` builds every target instant with
`now.with_hour(h).with_minute(m).with_second(0).with_nanosecond(0)`:
same calendar day as `now`, time of day `h:m:00`. -/

/-- Seconds in a day. -/
def secsPerDay : Nat := 86400

/-- The instant on `now`'s calendar day with time of day `hour:minute:00`
(`with_hour/with_minute/with_second(0)/with_nanosecond(0)` in `main.rs`). -/
def withTime (now hour minute : Nat) : Nat :=
  secsPerDay * (now / secsPerDay) + hour * 3600 + minute * 60

/-- One-shot rollover from `main.rs` lines 79–83: if the naive target is
not in the future, push it one day forward
(`target_time + chrono::Duration::days(1)`). -/
def scheduleOnce (now target : Nat) : Nat :=
  if target ≤ now then target + secsPerDay else target

/-- `get_loop_schedule` from `main.rs`: the (hour, minute) pairs of the
recurring schedule, in the source's list order. -/
def get_loop_schedule : List (Nat × Nat) :=
  [(7, 0), (12, 0), (17, 0), (22, 0), (3, 0)]

/-- `get_next_loop_time` from `main.rs`: scan the schedule in list order and
return the first slot instant strictly after `now`; if none, return
tomorrow's instant of `schedule[0]`. -/
def get_next_loop_time (now : Nat) : Nat :=
  match get_loop_schedule.find? (fun s => decide (now < withTime now s.1 s.2)) with
  | some s => withTime now s.1 s.2
  | none =>
      let first := get_loop_schedule.headD (0, 0)
      withTime (now + secsPerDay) first.1 first.2

/-! ## `parse_time` (`main.rs` lines 297–316) -/

/-- Split a character list at every `':'` (Rust `str::split(':')`;
`"a:b:c"` gives three fragments, a trailing `':'` gives an empty one). -/
def splitColon : List Char → List (List Char)
  | [] => [[]]
  | c :: rest =>
    if c = ':' then [] :: splitColon rest
    else
      match splitColon rest with
      | [] => [[c]]
      | g :: gs => (c :: g) :: gs

/-- Rust `str::parse::<u32>`: an optional leading `'+'`, then one or more
decimal digits, value below `2^32`. -/
def parseU32 (cs : List Char) : Option Nat :=
  let ds := match cs with
    | '+' :: rest => rest
    | _ => cs
  if !ds.isEmpty && ds.all isDigitChar then
    if digitsVal ds < 4294967296 then some (digitsVal ds) else none
  else none

/-- `parse_time` from `main.rs`, up to the point where the instant is
built: splits on `':'`, requires exactly two fragments, parses both as
`u32`, and rejects `hour ≥ 24 || minute ≥ 60`.  Returns the (hour, minute)
pair; the caller materialises `withTime now h m`. -/
def parse_time_hm (s : List Char) : Option (Nat × Nat) :=
  match splitColon s with
  | [hs, ms] =>
    match parseU32 hs, parseU32 ms with
    | some h, some m => if 24 ≤ h || 60 ≤ m then none else some (h, m)
    | _, _ => none
  | _ => none

/-- `parse_time` including the instant construction: the target is today's
date (the day of `now`) at the parsed hour and minute, seconds and
sub-seconds zeroed. -/
def parse_time (now : Nat) (s : List Char) : Option Nat :=
  (parse_time_hm s).map (fun p => withTime now p.1 p.2)

/-! ## Facts about the clock -/

theorem withTime_lt_next_day (now hour minute : Nat) :
    now < withTime now hour minute + secsPerDay := by
  unfold withTime secsPerDay
  omega

theorem parse_time_hm_bounds {s : List Char} {hr mr : Nat}
    (hp : parse_time_hm s = some (hr, mr)) : hr < 24 ∧ mr < 60 := by
  unfold parse_time_hm at hp
  split at hp
  · split at hp
    · split at hp
      · exact absurd hp (by simp)
      · rename_i hv mv hb
        simp only [Option.some.injEq, Prod.mk.injEq] at hp
        obtain ⟨rfl, rfl⟩ := hp
        simp only [Bool.or_eq_true, decide_eq_true_eq, not_or, not_le] at hb
        omega
    · exact absurd hp (by simp)
  · exact absurd hp (by simp)

/-! ## Claims about the clock -/

/-- C1: the claim asserts that `get_next_loop_time` returns the *smallest*
slot instant of today strictly after `now`, and otherwise the *earliest*
slot (03:00) on the next day — in particular tomorrow 03:00 for
now = 23:30.  The code instead scans the slot list in its literal order
`[07:00, 12:00, 17:00, 22:00, 03:00]` and falls back to `schedule[0]`
(07:00) on the next day.  This theorem evaluates the code at the failing
inputs: at `now` = 23:30 (84600 s) the result is tomorrow 07:00, not
tomorrow 03:00; at `now` = 02:00 (7200 s) the result is today 07:00 even
though today 03:00 is a strictly later-than-now slot instant smaller than
it. -/
theorem C1_get_next_loop_time_code_eval :
    get_next_loop_time 84600 = withTime (84600 + secsPerDay) 7 0 ∧
    withTime (84600 + secsPerDay) 7 0 ≠ withTime (84600 + secsPerDay) 3 0 ∧
    get_next_loop_time 7200 = withTime 7200 7 0 ∧
    7200 < withTime 7200 3 0 ∧
    withTime 7200 3 0 < withTime 7200 7 0 := by
  decide

/-- C5: for a one-shot target `t = withTime now h m` (today's date at the
parsed hour/minute with seconds and sub-seconds zeroed, hour/minute coming
from a successful `parse_time`): if `t ≤ now` the scheduled target is
exactly `t + 1 day` — same time of day, next calendar day — and if
`t > now` the target is exactly `t` (`main.rs` lines 79–83). -/
theorem C5_once_rollover (now hr mr : Nat) (s : List Char)
    (hp : parse_time_hm s = some (hr, mr)) :
    (withTime now hr mr ≤ now →
      scheduleOnce now (withTime now hr mr) = withTime now hr mr + secsPerDay ∧
      scheduleOnce now (withTime now hr mr) % secsPerDay = hr * 3600 + mr * 60 ∧
      scheduleOnce now (withTime now hr mr) / secsPerDay = now / secsPerDay + 1) ∧
    (now < withTime now hr mr →
      scheduleOnce now (withTime now hr mr) = withTime now hr mr) := by
  obtain ⟨h24, m60⟩ := parse_time_hm_bounds hp
  constructor
  · intro hle
    unfold scheduleOnce
    rw [if_pos hle]
    refine ⟨rfl, ?_, ?_⟩ <;> · unfold withTime secsPerDay; unfold withTime secsPerDay at hle; omega
  · intro hlt
    unfold scheduleOnce
    rw [if_neg (by omega)]

/-- Witness for C5 at concrete inputs: with `--time 06:00` parsed, a `now`
past 06:00 rolls to tomorrow, a `now` before 06:00 keeps today's target. -/
theorem C5_once_rollover_witness :
    (scheduleOnce 50000 (withTime 50000 6 0) = withTime 50000 6 0 + secsPerDay) ∧
    (scheduleOnce 100 (withTime 100 6 0) = withTime 100 6 0) :=
  ⟨((C5_once_rollover 50000 6 0 ("06:00").data (by decide)).1 (by decide)).1,
   (C5_once_rollover 100 6 0 ("06:00").data (by decide)).2 (by decide)⟩

/-- C6: the computed next fire time is strictly in the future, in both the
one-shot branch (after the rollover of `main.rs` lines 79–83) and the
recurring branch (`get_next_loop_time`), for every `now` and every
time-of-day pair. -/
theorem C6_next_fire_strictly_future (now hr mr : Nat) :
    now < scheduleOnce now (withTime now hr mr) ∧ now < get_next_loop_time now := by
  constructor
  · unfold scheduleOnce
    split
    · have := withTime_lt_next_day now hr mr
      omega
    · omega
  · rcases hf : get_loop_schedule.find? (fun s => decide (now < withTime now s.1 s.2))
      with _ | s
    · simp only [get_next_loop_time, hf]
      unfold get_loop_schedule withTime secsPerDay
      simp only [List.headD_cons]
      omega
    · have hs := List.find?_some hf
      simp only [decide_eq_true_eq] at hs
      simp only [get_next_loop_time, hf]
      exact hs

/-! ## `LogEntry` (`logger.rs` lines 8–16) and its serde_json line format

`Logger::log` serializes a `LogEntry` with `serde_json::to_string` and
appends the resulting line plus a newline to the day's file.  serde_json
emits the six fields in declaration order, `Option::None` as `null`, and
escapes `"` and `\` and control characters (below 0x20) inside string
literals; the `chrono` timestamp is serialized as an RFC 3339 string and is
modelled here by that string. -/

structure LogEntry where
  timestamp : String
  action : String
  status : String
  message : Option String
  response_content : Option String
  cycle_number : Option Nat
deriving DecidableEq

/-- Lowercase hexadecimal digit character (serde_json's `\u00XX` table). -/
def hexDigitChar (d : Nat) : Char :=
  if d < 10 then decDigit d else Char.ofNat (87 + d)

/-- serde_json's escaping of one character inside a JSON string literal:
`"` and `\` get a backslash escape, the five named control characters get
their short escapes, the remaining control characters become `\u00XX`, and
everything else is emitted as-is. -/
def escapeChar (c : Char) : List Char :=
  if c = '"' then ['\\', '"']
  else if c = '\\' then ['\\', '\\']
  else if c.toNat < 32 then
    if c = '\x08' then ['\\', 'b']
    else if c = '\t' then ['\\', 't']
    else if c = '\n' then ['\\', 'n']
    else if c = '\x0c' then ['\\', 'f']
    else if c = '\r' then ['\\', 'r']
    else ['\\', 'u', '0', '0', hexDigitChar (c.toNat / 16), hexDigitChar (c.toNat % 16)]
  else [c]

/-- Escape every character of a string body. -/
def escapeList : List Char → List Char
  | [] => []
  | c :: cs => escapeChar c ++ escapeList cs

/-- A JSON string literal: quote, escaped body, quote. -/
def renderStr (s : String) : List Char :=
  '"' :: (escapeList s.data ++ ['"'])

/-- serde_json rendering of an `Option<String>` field value. -/
def renderOptStr : Option String → List Char
  | none => "null".data
  | some s => renderStr s

/-- serde_json rendering of an `Option<u32>` field value. -/
def renderOptNat : Option Nat → List Char
  | none => "null".data
  | some n => renderNat n

/-- The exact character sequence `serde_json::to_string` produces for a
`LogEntry`: one object with the six fields in declaration order. -/
def renderLogEntryChars (e : LogEntry) : List Char :=
  "\x7b\"timestamp\":".data ++ renderStr e.timestamp ++
  ",\"action\":".data ++ renderStr e.action ++
  ",\"status\":".data ++ renderStr e.status ++
  ",\"message\":".data ++ renderOptStr e.message ++
  ",\"response_content\":".data ++ renderOptStr e.response_content ++
  ",\"cycle_number\":".data ++ renderOptNat e.cycle_number ++
  "\x7d".data

/-- The single line `Logger::log` writes for `e` (`writeln!` then appends
the terminating newline, which is not part of the line). -/
def logger_log_line (e : LogEntry) : String :=
  ⟨renderLogEntryChars e⟩

/-! ### An independent reader for one line -/

/-- Value of one hexadecimal digit character (either case accepted). -/
def hexVal (c : Char) : Option Nat :=
  if 48 ≤ c.toNat ∧ c.toNat ≤ 57 then some (c.toNat - 48)
  else if 97 ≤ c.toNat ∧ c.toNat ≤ 102 then some (c.toNat - 87)
  else if 65 ≤ c.toNat ∧ c.toNat ≤ 70 then some (c.toNat - 55)
  else none

/-- Consume an exact literal from the head of the input. -/
def matchLit : List Char → List Char → Option (List Char)
  | [], s => some s
  | _ :: _, [] => none
  | c :: cs, d :: ds => if c = d then matchLit cs ds else none

/-- Prepend a decoded character to a string-literal parse result. -/
def mapCons (c : Char) (o : Option (List Char × List Char)) :
    Option (List Char × List Char) :=
  o.map (fun p => (c :: p.1, p.2))

/-- Decode a JSON string literal body (the part after the opening quote):
returns the decoded characters and the input following the closing
quote. -/
def parseStrAux : List Char → Option (List Char × List Char)
  | [] => none
  | c :: rest =>
    if c = '"' then some ([], rest)
    else if c = '\\' then
      match rest with
      | [] => none
      | e :: rest2 =>
        if e = '"' then mapCons '"' (parseStrAux rest2)
        else if e = '\\' then mapCons '\\' (parseStrAux rest2)
        else if e = 'b' then mapCons '\x08' (parseStrAux rest2)
        else if e = 't' then mapCons '\t' (parseStrAux rest2)
        else if e = 'n' then mapCons '\n' (parseStrAux rest2)
        else if e = 'f' then mapCons '\x0c' (parseStrAux rest2)
        else if e = 'r' then mapCons '\r' (parseStrAux rest2)
        else if e = 'u' then
          match rest2 with
          | h1 :: h2 :: h3 :: h4 :: rest3 =>
            match hexVal h1, hexVal h2, hexVal h3, hexVal h4 with
            | some d1, some d2, some d3, some d4 =>
              mapCons (Char.ofNat (((d1 * 16 + d2) * 16 + d3) * 16 + d4))
                (parseStrAux rest3)
            | _, _, _, _ => none
          | _ => none
        else none
    else mapCons c (parseStrAux rest)

/-- Parse a complete JSON string literal, opening quote included. -/
def parseStrLit (s : List Char) : Option (String × List Char) :=
  match s with
  | [] => none
  | c :: rest =>
    if c = '"' then (parseStrAux rest).map (fun p => (⟨p.1⟩, p.2)) else none

/-- Parse `null` or a JSON string literal. -/
def parseOptStrLit (s : List Char) : Option (Option String × List Char) :=
  match matchLit "null".data s with
  | some r => some (none, r)
  | none => (parseStrLit s).map (fun p => (some p.1, p.2))

/-- Parse a non-negative JSON integer (a maximal run of decimal digits). -/
def parseNatLit (s : List Char) : Option (Nat × List Char) :=
  let ds := s.takeWhile isDigitChar
  if ds.isEmpty then none else some (digitsVal ds, s.dropWhile isDigitChar)

/-- Parse `null` or a non-negative JSON integer. -/
def parseOptNatLit (s : List Char) : Option (Option Nat × List Char) :=
  match matchLit "null".data s with
  | some r => some (none, r)
  | none => (parseNatLit s).map (fun p => (some p.1, p.2))

/-- Parse one serialized `LogEntry` line, independently of any other line:
the six fields in declaration order, then the closing brace, then end of
input. -/
def parseLogEntryChars (s : List Char) : Option LogEntry :=
  (matchLit "\x7b\"timestamp\":".data s).bind fun s1 =>
  (parseStrLit s1).bind fun p1 =>
  (matchLit ",\"action\":".data p1.2).bind fun s2 =>
  (parseStrLit s2).bind fun p2 =>
  (matchLit ",\"status\":".data p2.2).bind fun s3 =>
  (parseStrLit s3).bind fun p3 =>
  (matchLit ",\"message\":".data p3.2).bind fun s4 =>
  (parseOptStrLit s4).bind fun p4 =>
  (matchLit ",\"response_content\":".data p4.2).bind fun s5 =>
  (parseOptStrLit s5).bind fun p5 =>
  (matchLit ",\"cycle_number\":".data p5.2).bind fun s6 =>
  (parseOptNatLit s6).bind fun p6 =>
  (matchLit "\x7d".data p6.2).bind fun s7 =>
  if s7.isEmpty then some ⟨p1.1, p2.1, p3.1, p4.1, p5.1, p6.1⟩ else none

/-- Parse one log line back into a `LogEntry`. -/
def parseLogEntry (line : String) : Option LogEntry :=
  parseLogEntryChars line.data

/-! ### Round-trip lemmas for the line format -/

theorem matchLit_self_append (p r : List Char) : matchLit p (p ++ r) = some r := by
  induction p with
  | nil => rfl
  | cons c cs ih => simp [matchLit, ih]

theorem hexVal_hexDigitChar {d : Nat} (hd : d < 16) :
    hexVal (hexDigitChar d) = some d := by
  interval_cases d <;> decide

theorem parseStrAux_escapeChar (c : Char) (rest : List Char) :
    parseStrAux (escapeChar c ++ rest) = mapCons c (parseStrAux rest) := by
  by_cases hq : c = '"'
  · subst hq
    show parseStrAux ('\\' :: '"' :: rest) = _
    rw [parseStrAux.eq_def]
    simp only [Char.reduceEq, reduceIte]
  by_cases hbs : c = '\\'
  · subst hbs
    show parseStrAux ('\\' :: '\\' :: rest) = _
    rw [parseStrAux.eq_def]
    simp only [Char.reduceEq, reduceIte]
  by_cases hc : c.toNat < 32
  · by_cases h8 : c = '\x08'
    · subst h8
      show parseStrAux ('\\' :: 'b' :: rest) = _
      rw [parseStrAux.eq_def]
      simp only [Char.reduceEq, reduceIte]
    by_cases h9 : c = '\t'
    · subst h9
      show parseStrAux ('\\' :: 't' :: rest) = _
      rw [parseStrAux.eq_def]
      simp only [Char.reduceEq, reduceIte]
    by_cases h10 : c = '\n'
    · subst h10
      show parseStrAux ('\\' :: 'n' :: rest) = _
      rw [parseStrAux.eq_def]
      simp only [Char.reduceEq, reduceIte]
    by_cases h12 : c = '\x0c'
    · subst h12
      show parseStrAux ('\\' :: 'f' :: rest) = _
      rw [parseStrAux.eq_def]
      simp only [Char.reduceEq, reduceIte]
    by_cases h13 : c = '\r'
    · subst h13
      show parseStrAux ('\\' :: 'r' :: rest) = _
      rw [parseStrAux.eq_def]
      simp only [Char.reduceEq, reduceIte]
    · simp only [escapeChar, if_neg hq, if_neg hbs, if_pos hc, if_neg h8, if_neg h9,
        if_neg h10, if_neg h12, if_neg h13, List.cons_append, List.nil_append]
      rw [parseStrAux.eq_def]
      simp only [Char.reduceEq, reduceIte,
        hexVal_hexDigitChar (show c.toNat / 16 < 16 by omega),
        hexVal_hexDigitChar (show c.toNat % 16 < 16 by omega)]
      rw [show hexVal '0' = some 0 from rfl]
      show mapCons (Char.ofNat (((0 * 16 + 0) * 16 + c.toNat / 16) * 16 + c.toNat % 16))
        (parseStrAux rest) = mapCons c (parseStrAux rest)
      have harith : (((0 * 16 + 0) * 16 + c.toNat / 16) * 16 + c.toNat % 16) = c.toNat := by
        omega
      rw [harith, Char.ofNat_toNat]
  · rw [show escapeChar c = [c] from by
      simp only [escapeChar, if_neg hq, if_neg hbs, if_neg hc]]
    rw [List.cons_append, List.nil_append, parseStrAux.eq_def]
    simp [hq, hbs]

theorem parseStrAux_escapeList (l r : List Char) :
    parseStrAux (escapeList l ++ ('"' :: r)) = some (l, r) := by
  induction l with
  | nil =>
    rw [show escapeList [] = [] from rfl, List.nil_append, parseStrAux.eq_def]
    simp only [Char.reduceEq, reduceIte]
  | cons c cs ih =>
    simp only [escapeList, List.append_assoc]
    rw [parseStrAux_escapeChar, ih]
    rfl

theorem parseStrLit_renderStr (s : String) (r : List Char) :
    parseStrLit (renderStr s ++ r) = some (s, r) := by
  simp only [renderStr, List.cons_append, List.append_assoc, List.singleton_append]
  rw [parseStrLit]
  simp only [Char.reduceEq, reduceIte]
  rw [parseStrAux_escapeList]
  rfl

theorem decDigit_toNat {d : Nat} (hd : d < 10) : (decDigit d).toNat = 48 + d := by
  interval_cases d <;> decide

theorem isDigitChar_decDigit {d : Nat} (hd : d < 10) : isDigitChar (decDigit d) = true := by
  interval_cases d <;> decide

theorem renderNat_all_digits (n : Nat) : ∀ c ∈ renderNat n, isDigitChar c = true := by
  induction n using Nat.strong_induction_on with
  | _ n ih =>
    rw [renderNat]
    split
    · intro c hc
      simp only [List.mem_singleton] at hc
      subst hc
      exact isDigitChar_decDigit (by omega)
    · rename_i hn
      intro c hc
      rw [List.mem_append] at hc
      rcases hc with hc | hc
      · exact ih (n / 10) (Nat.div_lt_self (by omega) (by omega)) c hc
      · simp only [List.mem_singleton] at hc
        subst hc
        exact isDigitChar_decDigit (by omega)

theorem renderNat_ne_nil (n : Nat) : renderNat n ≠ [] := by
  rw [renderNat]
  split <;> simp

theorem digitsVal_append_one (l : List Char) (d : Char) :
    digitsVal (l ++ [d]) = digitsVal l * 10 + (d.toNat - 48) := by
  unfold digitsVal
  rw [List.foldl_append]
  rfl

theorem digitsVal_renderNat (n : Nat) : digitsVal (renderNat n) = n := by
  induction n using Nat.strong_induction_on with
  | _ n ih =>
    rw [renderNat]
    split
    · rename_i h
      simp [digitsVal, decDigit_toNat h]
    · rename_i h
      rw [digitsVal_append_one, ih (n / 10) (Nat.div_lt_self (by omega) (by omega)),
        decDigit_toNat (show n % 10 < 10 by omega)]
      omega

theorem takeWhile_append_all {p : Char → Bool} {l : List Char}
    (h : ∀ c ∈ l, p c = true) (r : List Char) :
    List.takeWhile p (l ++ r) = l ++ List.takeWhile p r := by
  induction l with
  | nil => simp
  | cons c cs ih =>
    have hc := h c (List.mem_cons_self c cs)
    simp only [List.cons_append, List.takeWhile_cons, hc, if_true]
    rw [ih (fun x hx => h x (List.mem_cons_of_mem c hx))]

theorem dropWhile_append_all {p : Char → Bool} {l : List Char}
    (h : ∀ c ∈ l, p c = true) (r : List Char) :
    List.dropWhile p (l ++ r) = List.dropWhile p r := by
  induction l with
  | nil => simp
  | cons c cs ih =>
    have hc := h c (List.mem_cons_self c cs)
    simp only [List.cons_append, List.dropWhile_cons, hc, if_true]
    exact ih (fun x hx => h x (List.mem_cons_of_mem c hx))

/-- Does the input not start with a decimal digit?  (The boundary condition
under which a maximal digit run ends exactly at the rendered number.) -/
def headNotDigit (r : List Char) : Bool :=
  match r with
  | [] => true
  | c :: _ => !isDigitChar c

/-- A rest whose head is not a digit contributes nothing to `takeWhile`. -/
theorem takeWhile_digits_nil {r : List Char} (hr : headNotDigit r = true) :
    List.takeWhile isDigitChar r = [] := by
  cases r with
  | nil => rfl
  | cons c cs =>
    simp only [headNotDigit, Bool.not_eq_true'] at hr
    simp [List.takeWhile_cons, hr]

theorem dropWhile_digits_id {r : List Char} (hr : headNotDigit r = true) :
    List.dropWhile isDigitChar r = r := by
  cases r with
  | nil => rfl
  | cons c cs =>
    simp only [headNotDigit, Bool.not_eq_true'] at hr
    simp [List.dropWhile_cons, hr]

theorem parseNatLit_renderNat (n : Nat) {r : List Char} (hr : headNotDigit r = true) :
    parseNatLit (renderNat n ++ r) = some (n, r) := by
  unfold parseNatLit
  rw [takeWhile_append_all (renderNat_all_digits n), takeWhile_digits_nil hr,
    dropWhile_append_all (renderNat_all_digits n), dropWhile_digits_id hr,
    List.append_nil]
  simp [renderNat_ne_nil n, List.isEmpty_iff, digitsVal_renderNat]

theorem matchLit_null_renderStr (s : String) (r : List Char) :
    matchLit "null".data (renderStr s ++ r) = none := by
  rw [show renderStr s ++ r = '"' :: (escapeList s.data ++ ['"'] ++ r) from by
    simp [renderStr, List.append_assoc]]
  rfl

theorem parseOptStrLit_renderOptStr (o : Option String) (r : List Char) :
    parseOptStrLit (renderOptStr o ++ r) = some (o, r) := by
  cases o with
  | none =>
    unfold parseOptStrLit renderOptStr
    rw [matchLit_self_append]
  | some s =>
    unfold parseOptStrLit renderOptStr
    rw [matchLit_null_renderStr, parseStrLit_renderStr]
    rfl

theorem matchLit_null_renderNat (n : Nat) (r : List Char) :
    matchLit "null".data (renderNat n ++ r) = none := by
  rcases hrn : renderNat n with _ | ⟨d, tail⟩
  · exact absurd hrn (renderNat_ne_nil n)
  · have hd : isDigitChar d = true := by
      apply renderNat_all_digits n
      rw [hrn]
      exact List.mem_cons_self d tail
    have hne : ¬ (('n' : Char) = d) := by
      intro he
      rw [← he] at hd
      exact absurd hd (by decide)
    rw [show "null".data = 'n' :: "ull".data from rfl, List.cons_append, matchLit]
    simp [hne]

theorem parseOptNatLit_renderOptNat (o : Option Nat) {r : List Char}
    (hr : headNotDigit r = true) :
    parseOptNatLit (renderOptNat o ++ r) = some (o, r) := by
  cases o with
  | none =>
    unfold parseOptNatLit renderOptNat
    rw [matchLit_self_append]
  | some n =>
    unfold parseOptNatLit renderOptNat
    rw [matchLit_null_renderNat, parseNatLit_renderNat n hr]
    rfl

theorem matchLit_self (p : List Char) : matchLit p p = some [] := by
  have h := matchLit_self_append p []
  rwa [List.append_nil] at h

theorem parse_render_log_entry (e : LogEntry) :
    parseLogEntryChars (renderLogEntryChars e) = some e := by
  obtain ⟨ts, ac, st, msg, rc, cn⟩ := e
  unfold renderLogEntryChars parseLogEntryChars
  simp only [List.append_assoc, matchLit_self_append, Option.some_bind,
    parseStrLit_renderStr, parseOptStrLit_renderOptStr]
  rw [parseOptNatLit_renderOptNat cn (by decide)]
  simp only [Option.some_bind, matchLit_self, List.isEmpty_nil, if_true]

/-! ### The serialized line never contains a newline -/

theorem hexDigitChar_ne_newline {d : Nat} (hd : d < 16) : hexDigitChar d ≠ '\n' := by
  interval_cases d <;> decide

theorem newline_not_mem_escapeChar (c : Char) : '\n' ∉ escapeChar c := by
  unfold escapeChar
  split
  · decide
  split
  · decide
  split
  · rename_i hc
    split
    · decide
    split
    · decide
    split
    · decide
    split
    · decide
    split
    · decide
    · intro hmem
      simp only [List.mem_cons, List.not_mem_nil, or_false] at hmem
      rcases hmem with h | h | h | h | h | h <;>
        first
        | exact absurd h (by decide)
        | exact absurd h.symm (hexDigitChar_ne_newline (by omega))
  · rename_i hq hbs hc
    intro hmem
    simp only [List.mem_singleton] at hmem
    rw [← hmem] at hc
    exact hc (by decide)

theorem newline_not_mem_escapeList (l : List Char) : '\n' ∉ escapeList l := by
  induction l with
  | nil => simp [escapeList]
  | cons c cs ih =>
    simp only [escapeList, List.mem_append]
    rintro (h | h)
    · exact newline_not_mem_escapeChar c h
    · exact ih h

theorem newline_not_mem_renderStr (s : String) : '\n' ∉ renderStr s := by
  unfold renderStr
  simp only [List.mem_cons, List.mem_append, List.mem_singleton]
  rintro (h | h | h)
  · exact absurd h (by decide)
  · exact newline_not_mem_escapeList s.data h
  · exact absurd h (by decide)

theorem newline_not_mem_renderOptStr (o : Option String) : '\n' ∉ renderOptStr o := by
  cases o with
  | none => decide
  | some s => exact newline_not_mem_renderStr s

theorem newline_not_mem_renderNat (n : Nat) : '\n' ∉ renderNat n := by
  intro hmem
  have := renderNat_all_digits n '\n' hmem
  exact absurd this (by decide)

theorem newline_not_mem_renderOptNat (o : Option Nat) : '\n' ∉ renderOptNat o := by
  cases o with
  | none => decide
  | some n => exact newline_not_mem_renderNat n

theorem newline_not_mem_render_line (e : LogEntry) : '\n' ∉ renderLogEntryChars e := by
  unfold renderLogEntryChars
  intro hmem
  simp only [List.mem_append, or_assoc] at hmem
  rcases hmem with h | h | h | h | h | h | h | h | h | h | h | h | h <;>
    first
    | exact absurd h (by decide)
    | exact newline_not_mem_renderStr _ h
    | exact newline_not_mem_renderOptStr _ h
    | exact newline_not_mem_renderOptNat _ h

/-- C7: for every `LogEntry`, `Logger::log` writes its serde_json
serialization as a single line — the serialized text contains no newline
character — and that line alone, seen by a reader that has parsed no other
line, parses back to a `LogEntry` equal field for field (timestamp, action,
status, message, response_content, cycle_number) to the one written. -/
theorem C7_log_line_round_trip (e : LogEntry) :
    parseLogEntry (logger_log_line e) = some e ∧ '\n' ∉ (logger_log_line e).data := by
  constructor
  · show parseLogEntryChars (renderLogEntryChars e) = some e
    exact parse_render_log_entry e
  · show '\n' ∉ renderLogEntryChars e
    exact newline_not_mem_render_line e

/-! ## ActionRunner (`main.rs` lines 375–401)

The external `claude` subprocess is an oracle
`ex : String → List String → Option CmdOutput`; `ex prog args = none`
models a spawn failure (`Command::output` returning `Err`). -/

/-- Captured completion of the external command: `status.success()`,
`status.code()` (absent when killed by a signal), and the captured
streams. -/
structure CmdOutput where
  success : Bool
  exitCode : Option Int
  stdout : String
  stderr : String

/-- Decimal rendering of an `Int` (Rust `Display` for `i32`). -/
def intStr (i : Int) : String :=
  if i < 0 then "-" ++ natStr i.natAbs else natStr i.natAbs

/-- Rust `Debug` rendering of an `Option<i32>` exit code. -/
def reprExitCode : Option Int → String
  | some c => "Some(" ++ intStr c ++ ")"
  | none => "None"

/-- `message.replace("\"", "\\\"")` from `build_claude_command`. -/
def replaceQuote : List Char → List Char
  | [] => []
  | c :: cs => (if c = '"' then ['\\', '"'] else [c]) ++ replaceQuote cs

/-- `build_claude_command` from `main.rs`: the display string of the
action, derivable without executing anything. -/
def build_claude_command (message : String) : String :=
  "claude --dangerously-skip-permissions \"" ++ ⟨replaceQuote message.data⟩ ++ "\""

/-- The argument vector passed to the `claude` binary. -/
def claude_args (message : String) : List String :=
  ["--dangerously-skip-permissions", message]

/-- The `anyhow::bail!` text of `run_claude_command` for a non-success
completion: it embeds the `Debug` form of the exit code and the captured
stderr. -/
def claude_error_text (out : CmdOutput) : String :=
  "Claude command failed with exit code: " ++ reprExitCode out.exitCode ++
    "\nError: " ++ out.stderr

/-- `run_claude_command` from `main.rs`: spawn `claude` with the fixed flag
and the message; spawn failure and non-zero exit become errors, success
returns the captured stdout. -/
def run_claude_command (message : String)
    (ex : String → List String → Option CmdOutput) : Except String String :=
  match ex "claude" (claude_args message) with
  | none => .error "Failed to execute claude command"
  | some out =>
    if out.success then .ok out.stdout else .error (claude_error_text out)

/-- The fixed weather query used by ping mode (`run_ping` in `main.rs`). -/
def weather_query : String :=
  "请搜索今日全球天气信息，告诉我：1) 今天全世界最热的地方及其温度；2) 今天全世界最冷的地方及其温度；3) 这些地方的具体位置和当地时间；4) 简要分析造成这些极端温度的气象原因；5) 提供一些有趣的天气相关事实。请提供详细和准确的信息，包括数据来源。"

/-- `run_ping` from `main.rs`: the operator's message is ignored (the
parameter is `_message`); the fixed weather query is passed to
`run_claude_command`. -/
def run_ping (_message : String)
    (ex : String → List String → Option CmdOutput) : Except String String :=
  run_claude_command weather_query ex

/-! ### Substring occurrence -/

/-- Does `needle` occur at the head of the second list? -/
def startsWithSeq : List Char → List Char → Bool
  | [], _ => true
  | _ :: _, [] => false
  | a :: as, b :: bs => a = b && startsWithSeq as bs

/-- Does `needle` occur contiguously anywhere in the haystack? -/
def occursIn (needle : List Char) : List Char → Bool
  | [] => needle.isEmpty
  | c :: rest => startsWithSeq needle (c :: rest) || occursIn needle rest

theorem startsWithSeq_append (l t : List Char) : startsWithSeq l (l ++ t) = true := by
  induction l with
  | nil => rfl
  | cons a as ih => simp [startsWithSeq, ih]

theorem occursIn_refl (n : List Char) : occursIn n n = true := by
  cases n with
  | nil => rfl
  | cons c cs =>
    have h := startsWithSeq_append (c :: cs) []
    rw [List.append_nil] at h
    simp [occursIn, h]

theorem occursIn_of_occursIn_right (n m l : List Char) (h : occursIn n m = true) :
    occursIn n (l ++ m) = true := by
  induction l with
  | nil => simpa using h
  | cons a as ih => simp [occursIn, ih]

/-- C10: in ping mode the operator-supplied message has no influence on
the executed action.  If two oracle worlds agree on the single fixed
invocation `claude --dangerously-skip-permissions <weather_query>`, then
`run_ping m1` in one world and `run_ping m2` in the other produce the same
outcome, for any two messages — the outcome depends only on the external
command's behaviour at that fixed invocation, never on the message. -/
theorem C10_ping_message_noninterference (m1 m2 : String)
    (ex1 ex2 : String → List String → Option CmdOutput)
    (hx : ex1 "claude" (claude_args weather_query) =
          ex2 "claude" (claude_args weather_query)) :
    run_ping m1 ex1 = run_ping m2 ex2 := by
  unfold run_ping run_claude_command
  rw [hx]

/-- Witness for C10 at concrete inputs: two different messages in the same
world give identical outcomes. -/
theorem C10_ping_message_noninterference_witness :
    run_ping "first message" (fun _ _ => none) =
    run_ping "second message" (fun _ _ => none) :=
  C10_ping_message_noninterference "first message" "second message" _ _ rfl

/-! ## Logger entry builders (`logger.rs` lines 31–75 and 200–220)

Each builder takes the timestamp (`Local::now()` at the call) as an
argument; entries are otherwise exactly the ones `logger.rs`
constructs. -/

/-- `Logger::log_cycle_start`. -/
def cycle_start_entry (t : String) (n : Nat) : LogEntry :=
  ⟨t, "cycle", "start", some ("Starting cycle " ++ natStr n), none, some n⟩

/-- `Logger::log_cycle_end`. -/
def cycle_end_entry (t : String) (n : Nat) : LogEntry :=
  ⟨t, "cycle", "end", some ("Completed cycle " ++ natStr n), none, some n⟩

/-- The `action` tag of the outcome record: `"ping"` in ping mode,
`"claude"` otherwise. -/
def action_name (ping : Bool) : String :=
  if ping then "ping" else "claude"

/-- The fixed success message of the outcome record. -/
def success_message (ping : Bool) : String :=
  if ping then "Ping sent successfully" else "Claude command executed successfully"

/-- The outcome record of one invocation:
`log_ping_success_with_response` / `log_claude_success_with_response` on
success (response captured), `log_ping_error_with_cycle` /
`log_claude_error_with_cycle` on failure (error text as message, no
response). -/
def outcome_entry (ping : Bool) (t : String) (res : Except String String)
    (cyc : Option Nat) : LogEntry :=
  match res with
  | .ok r => ⟨t, action_name ping, "success", some (success_message ping), some r, cyc⟩
  | .error e => ⟨t, action_name ping, "error", some e, none, cyc⟩

/-! ## Reified side effects -/

/-- One observable side effect of the process.  `logTry entry ok` is a call
to `Logger::log` for `entry` whose file write succeeded exactly when `ok`
(the console echo inside `Logger::log` is part of the same step);
`spawnCancelSingle` / `spawnCancelLoop` record which Ctrl+C handler was
installed. -/
inductive Effect where
  | println (s : String)
  | printStr (s : String)
  | eprintln (s : String)
  | mkLogDir (path : String)
  | writeFile (path : String) (content : String)
  | removeFile (path : String)
  | exec (prog : String) (args : List String)
  | logTry (entry : LogEntry) (ok : Bool)
  | spawnCancelSingle
  | spawnCancelLoop (pidFile : Option String)
  | exitNow (code : Nat)
deriving DecidableEq

/-- The log entries whose write was attempted (every `Logger::log` call). -/
def logAttempts (es : List Effect) : List LogEntry :=
  es.filterMap (fun ef => match ef with
    | .logTry en _ => some en
    | _ => none)

/-- The log entries actually appended to the file. -/
def logWritten (es : List Effect) : List LogEntry :=
  es.filterMap (fun ef => match ef with
    | .logTry en true => some en
    | _ => none)

/-- Is this effect an invocation of the external command? -/
def isExecEffect : Effect → Bool
  | .exec _ _ => true
  | _ => false

/-- Is this effect a file removal? -/
def isRemoveEffect : Effect → Bool
  | .removeFile _ => true
  | _ => false

/-- The operator-visible warning a call site emits when a log write fails
(`eprintln!("Warning: ...")`; the attached io error text is elided). -/
def warnUnless (ok : Bool) (msg : String) : List Effect :=
  if ok then [] else [Effect.eprintln msg]

/-! ## Cancellation handlers and PID cleanup (`main.rs`) -/

/-- `cleanup_pid_file` from `main.rs`: remove the file if a path was given;
report success or failure on the console. -/
def cleanup_pid_effects (rmOk : Bool) : Option String → List Effect
  | none => []
  | some p =>
    Effect.removeFile p ::
      (if rmOk then [Effect.println ("PID file removed: " ++ p)]
       else [Effect.eprintln ("Warning: Failed to remove PID file " ++ p)])

/-- The single-mode Ctrl+C handler (`main.rs` lines 120–124): print an
acknowledgement and terminate the process.  It performs no PID cleanup. -/
def singleCancelEffects : List Effect :=
  [Effect.println "\nCancelled by user", Effect.exitNow 0]

/-- The loop-mode Ctrl+C handler (`main.rs` lines 210–216): print, run
`cleanup_pid_file` on the captured PID path, terminate the process. -/
def loopCancelEffects (rmOk : Bool) (pidFile : Option String) : List Effect :=
  Effect.println "\nStopping loop mode..." ::
    (cleanup_pid_effects rmOk pidFile ++ [Effect.exitNow 0])

/-- C2 counterexample: the claim says the cancellation path removes the PID
file in *every* mode, but the single-mode handler only prints and calls
`std::process::exit(0)` — it contains no file-removal step at all (and the
`cleanup_pid_file` at the end of `main` is unreachable once the handler
exits the process). -/
theorem C2_counterexample_single_cancel :
    singleCancelEffects.any isRemoveEffect = false ∧
    singleCancelEffects.getLast? = some (Effect.exitNow 0) := by
  decide

/-- C2 (amended): on cancellation both handlers terminate the process
without invoking the external action; the loop-mode handler removes the
PID file before exiting, while the single-mode handler performs no PID
cleanup. -/
theorem C2_cancel_behaviour_amended (rmOk : Bool) (p : String) :
    singleCancelEffects.any isExecEffect = false ∧
    singleCancelEffects.any isRemoveEffect = false ∧
    singleCancelEffects.getLast? = some (Effect.exitNow 0) ∧
    (loopCancelEffects rmOk (some p)).any isExecEffect = false ∧
    Effect.removeFile p ∈ loopCancelEffects rmOk (some p) ∧
    (loopCancelEffects rmOk (some p)).getLast? = some (Effect.exitNow 0) := by
  cases rmOk <;>
    simp [loopCancelEffects, cleanup_pid_effects, singleCancelEffects,
      isExecEffect, isRemoveEffect, List.getLast?]

/-! ## Recurring mode (`run_loop_mode`, `main.rs` lines 218–294)

The loop body is modelled per cycle.  External inputs are oracles indexed
by cycle number: `exec n` is the world seen by cycle `n`'s invocation,
`logOk n i` is the write outcome of the cycle's `i`-th log call
(0 = start, 1 = outcome, 2 = end), `ts n i` the timestamp text at that
call, and `waitPrints n` the console lines of the cycle's waiting phase
(the "Cycle n - Next execution" header and per-second countdown; console
output only, abstracted as the printed lines). -/

structure LoopEnv where
  ping : Bool
  message : String
  exec : Nat → String → List String → Option CmdOutput
  logOk : Nat → Nat → Bool
  ts : Nat → Nat → String
  waitPrints : Nat → List String

/-- The action one cycle executes: `run_ping` in ping mode,
`run_claude_command` otherwise. -/
def runAction (ping : Bool) (message : String)
    (ex : String → List String → Option CmdOutput) : Except String String :=
  if ping then run_ping message ex else run_claude_command message ex

/-- The argument vector of the invocation an execution step performs. -/
def action_args (ping : Bool) (message : String) : List String :=
  claude_args (if ping then weather_query else message)

/-- All effects of one loop cycle `n`, in program order: waiting-phase
console output, the start record attempt (plus its warning on failure),
the "Executing cycle" banner, the external invocation, the outcome record
attempt and the success/failure console report, the end record attempt,
and the cycle-completed banner. -/
def cycleEffects (env : LoopEnv) (n : Nat) : List Effect :=
  (env.waitPrints n).map Effect.println ++
  [Effect.logTry (cycle_start_entry (env.ts n 0) n) (env.logOk n 0)] ++
  warnUnless (env.logOk n 0) "Warning: Failed to log cycle start" ++
  [Effect.println ("\nExecuting cycle " ++ natStr n ++ "...")] ++
  [Effect.exec "claude" (action_args env.ping env.message)] ++
  (match runAction env.ping env.message (env.exec n) with
   | .ok r =>
     [Effect.logTry (outcome_entry env.ping (env.ts n 1) (.ok r) (some n)) (env.logOk n 1)] ++
     warnUnless (env.logOk n 1)
       (if env.ping then "Warning: Failed to log ping success"
        else "Warning: Failed to log claude success") ++
     [Effect.println ("Cycle " ++ natStr n ++
        (if env.ping then " ping" else " command") ++ " completed successfully!"),
      Effect.println ("Response length: " ++ natStr r.length ++ " characters")]
   | .error e =>
     [Effect.logTry (outcome_entry env.ping (env.ts n 1) (.error e) (some n)) (env.logOk n 1)] ++
     warnUnless (env.logOk n 1)
       (if env.ping then "Warning: Failed to log ping error"
        else "Warning: Failed to log claude error") ++
     [Effect.eprintln ("Cycle " ++ natStr n ++
        (if env.ping then " ping" else " command") ++ " failed: " ++ e)]) ++
  [Effect.logTry (cycle_end_entry (env.ts n 2) n) (env.logOk n 2)] ++
  warnUnless (env.logOk n 2) "Warning: Failed to log cycle end" ++
  [Effect.println "Cycle completed. Waiting for next scheduled time...\n"]

/-- The effects of `fuel` consecutive cycles starting at cycle number `n`
(`cycle_number` starts at 1 and is incremented once per completed cycle;
the real loop never returns, the model truncates after `fuel` cycles). -/
def loopCycles (env : LoopEnv) : Nat → Nat → List Effect
  | _, 0 => []
  | n, fuel + 1 => cycleEffects env n ++ loopCycles env (n + 1) fuel

/-! ### Projection lemmas -/

theorem logAttempts_append (a b : List Effect) :
    logAttempts (a ++ b) = logAttempts a ++ logAttempts b := by
  unfold logAttempts
  rw [List.filterMap_append]

theorem logWritten_append (a b : List Effect) :
    logWritten (a ++ b) = logWritten a ++ logWritten b := by
  unfold logWritten
  rw [List.filterMap_append]

theorem logAttempts_nil : logAttempts [] = [] := rfl

theorem logWritten_nil : logWritten [] = [] := rfl

theorem logAttempts_cons_println (s : String) (l : List Effect) :
    logAttempts (Effect.println s :: l) = logAttempts l := rfl

theorem logAttempts_cons_eprintln (s : String) (l : List Effect) :
    logAttempts (Effect.eprintln s :: l) = logAttempts l := rfl

theorem logAttempts_cons_exec (p : String) (a : List String) (l : List Effect) :
    logAttempts (Effect.exec p a :: l) = logAttempts l := rfl

theorem logAttempts_cons_logTry (en : LogEntry) (b : Bool) (l : List Effect) :
    logAttempts (Effect.logTry en b :: l) = en :: logAttempts l := rfl

theorem logWritten_cons_println (s : String) (l : List Effect) :
    logWritten (Effect.println s :: l) = logWritten l := rfl

theorem logWritten_cons_eprintln (s : String) (l : List Effect) :
    logWritten (Effect.eprintln s :: l) = logWritten l := rfl

theorem logWritten_cons_exec (p : String) (a : List String) (l : List Effect) :
    logWritten (Effect.exec p a :: l) = logWritten l := rfl

theorem logWritten_cons_logTry_true (en : LogEntry) (l : List Effect) :
    logWritten (Effect.logTry en true :: l) = en :: logWritten l := rfl

theorem logAttempts_map_println (l : List String) :
    logAttempts (l.map Effect.println) = [] := by
  induction l with
  | nil => rfl
  | cons s rest ih => rw [List.map_cons, logAttempts_cons_println, ih]

theorem logWritten_map_println (l : List String) :
    logWritten (l.map Effect.println) = [] := by
  induction l with
  | nil => rfl
  | cons s rest ih => rw [List.map_cons, logWritten_cons_println, ih]

theorem logAttempts_warnUnless (ok : Bool) (msg : String) :
    logAttempts (warnUnless ok msg) = [] := by
  cases ok <;> rfl

theorem logWritten_warnUnless (ok : Bool) (msg : String) :
    logWritten (warnUnless ok msg) = [] := by
  cases ok <;> rfl

/-- Every cycle attempts exactly the three records start, outcome, end —
whatever the write outcomes `env.logOk` are. -/
theorem logAttempts_cycleEffects (env : LoopEnv) (n : Nat) :
    logAttempts (cycleEffects env n) =
      [cycle_start_entry (env.ts n 0) n,
       outcome_entry env.ping (env.ts n 1)
         (runAction env.ping env.message (env.exec n)) (some n),
       cycle_end_entry (env.ts n 2) n] := by
  unfold cycleEffects
  rcases hr : runAction env.ping env.message (env.exec n) with e | r <;>
    simp only [hr, logAttempts_append, logAttempts_map_println, logAttempts_warnUnless,
      logAttempts_cons_println, logAttempts_cons_eprintln, logAttempts_cons_exec,
      logAttempts_cons_logTry, logAttempts_nil, List.append_assoc, List.nil_append,
      List.append_nil, List.cons_append, List.singleton_append]

theorem logWritten_cycleEffects_allOk (ping : Bool) (msg : String)
    (ex : Nat → String → List String → Option CmdOutput)
    (ts : Nat → Nat → String) (wp : Nat → List String) (n : Nat) :
    logWritten (cycleEffects ⟨ping, msg, ex, fun _ _ => true, ts, wp⟩ n) =
      [cycle_start_entry (ts n 0) n,
       outcome_entry ping (ts n 1) (runAction ping msg (ex n)) (some n),
       cycle_end_entry (ts n 2) n] := by
  unfold cycleEffects
  rcases hr : runAction ping msg (ex n) with e | r <;>
    simp only [hr, logWritten_append, logWritten_map_println, logWritten_warnUnless,
      logWritten_cons_println, logWritten_cons_eprintln, logWritten_cons_exec,
      logWritten_cons_logTry_true, logWritten_nil, List.append_assoc, List.nil_append,
      List.append_nil, List.cons_append, List.singleton_append]

theorem logAttempts_loopCycles (env : LoopEnv) (n fuel : Nat) :
    logAttempts (loopCycles env n fuel) =
      (List.range' n fuel).flatMap (fun k =>
        [cycle_start_entry (env.ts k 0) k,
         outcome_entry env.ping (env.ts k 1)
           (runAction env.ping env.message (env.exec k)) (some k),
         cycle_end_entry (env.ts k 2) k]) := by
  induction fuel generalizing n with
  | zero => rfl
  | succ f ih =>
    rw [loopCycles, logAttempts_append, logAttempts_cycleEffects, ih, List.range'_succ]
    simp [List.flatMap_cons]

theorem logWritten_loopCycles_allOk (ping : Bool) (msg : String)
    (ex : Nat → String → List String → Option CmdOutput)
    (ts : Nat → Nat → String) (wp : Nat → List String) (n fuel : Nat) :
    logWritten (loopCycles ⟨ping, msg, ex, fun _ _ => true, ts, wp⟩ n fuel) =
      (List.range' n fuel).flatMap (fun k =>
        [cycle_start_entry (ts k 0) k,
         outcome_entry ping (ts k 1) (runAction ping msg (ex k)) (some k),
         cycle_end_entry (ts k 2) k]) := by
  induction fuel generalizing n with
  | zero => rfl
  | succ f ih =>
    rw [loopCycles, logWritten_append, logWritten_cycleEffects_allOk, ih,
      List.range'_succ]
    simp [List.flatMap_cons]

/-- C3: in recurring mode, with every log write succeeding, the log
written after `N` completed cycles is exactly `N` consecutive triples
(start, outcome, end) — in that order within each cycle — carrying the
cycle numbers `1, 2, ..., N` in write order (`List.range' 1 N` is the
list `[1, ..., N]`). -/
theorem C3_cycle_records_in_order (ping : Bool) (msg : String)
    (ex : Nat → String → List String → Option CmdOutput)
    (ts : Nat → Nat → String) (wp : Nat → List String) (N : Nat) :
    logWritten (loopCycles ⟨ping, msg, ex, fun _ _ => true, ts, wp⟩ 1 N) =
      (List.range' 1 N).flatMap (fun k =>
        [cycle_start_entry (ts k 0) k,
         outcome_entry ping (ts k 1) (runAction ping msg (ex k)) (some k),
         cycle_end_entry (ts k 2) k]) :=
  logWritten_loopCycles_allOk ping msg ex ts wp 1 N

/-- C8: a failing log write never terminates the recurring loop or aborts
the current cycle.  For every pattern `env.logOk` of write failures, the
loop still performs all `N` cycles and attempts exactly the same three
records per cycle: the attempted-record trace is a closed form that does
not mention `env.logOk` at all (each failure only adds an operator-visible
warning, see `warnUnless` in `cycleEffects`). -/
theorem C8_log_failures_never_abort (env : LoopEnv) (N : Nat) :
    logAttempts (loopCycles env 1 N) =
      (List.range' 1 N).flatMap (fun k =>
        [cycle_start_entry (env.ts k 0) k,
         outcome_entry env.ping (env.ts k 1)
           (runAction env.ping env.message (env.exec k)) (some k),
         cycle_end_entry (env.ts k 2) k]) :=
  logAttempts_loopCycles env 1 N

/-! ## Argument set and system oracles -/

/-- The parsed CLI arguments (`Args` in `main.rs`; `time` is `None` when
`--time` was not given, defaulting to `06:00` in `main`). -/
structure Args where
  time : Option String
  message : String
  dry_run : Bool
  ping_mode : Bool
  log_dir : String
  loop_mode : Bool
  pid_file : Option String

/-- External-world oracles for one process run: the per-invocation command
world, success of directory creation / PID write / PID removal, the
process id, the clock at startup, and the loop-mode oracles threaded into
`LoopEnv` (for single mode the invocation uses `exec 0` and the log write
uses `logOk 0 0` / `ts 0 0`). -/
structure Sys where
  exec : Nat → String → List String → Option CmdOutput
  initOk : Bool
  pidOk : Bool
  rmOk : Bool
  pid : Nat
  now : Nat
  logOk : Nat → Nat → Bool
  ts : Nat → Nat → String
  waitPrints : Nat → List String

/-- Console rendering of an instant (`format("%Y-%m-%d %H:%M:%S")`).
Console pretty-printing is outside the spec's core (§1); the rendering is
abstracted as the decimal seconds value. -/
def fmtInstant (t : Nat) : String :=
  natStr t

/-- Two-digit zero-padded rendering (`{:02}` in the countdown format). -/
def pad2 (n : Nat) : String :=
  if n < 10 then "0" ++ natStr n else natStr n

/-- The countdown text for `d` remaining seconds: total hours, minute and
second of the remaining signed duration. -/
def fmtRemaining (d : Nat) : String :=
  pad2 (d / 3600) ++ ":" ++ pad2 (d / 60 % 60) ++ ":" ++ pad2 (d % 60)

/-- The per-second countdown of the single-mode wait loop: one tick per
second from `now` until the target is reached. -/
def tickPrints (target now : Nat) : List Effect :=
  (List.range (target - now)).map
    (fun k => Effect.printStr ("\rTime remaining: " ++ fmtRemaining (target - now - k)))

/-- The "Action:"/"Command:" description line printed by both modes. -/
def action_desc (args : Args) : Effect :=
  if args.ping_mode then Effect.println "Action: Query global weather information"
  else Effect.println ("Command: " ++ build_claude_command args.message)

/-- `run_single_mode` from `main.rs` (lines 93–184): dry run prints and
returns; otherwise banner, Ctrl+C handler installation, countdown, then
one invocation, its log attempt, and the result — an action failure is
returned to `main` as the function's error value. -/
def run_single_mode (args : Args) (sys : Sys) (target : Nat) :
    List Effect × Except String Unit :=
  if args.dry_run then
    ([Effect.println ("Would run at: " ++ fmtInstant target),
      action_desc args,
      Effect.println ("Log directory: " ++ args.log_dir)], .ok ())
  else
    let res := runAction args.ping_mode args.message (sys.exec 0)
    ([Effect.println "Claude Code Schedule by Ian Macalinao",
      Effect.println ("Scheduled to run at: " ++ fmtInstant target),
      action_desc args,
      Effect.println ("Log directory: " ++ args.log_dir),
      Effect.println "Press Ctrl+C to cancel...\n",
      Effect.spawnCancelSingle] ++
     tickPrints target sys.now ++
     [Effect.println "\nRunning scheduled action...",
      Effect.exec "claude" (action_args args.ping_mode args.message)] ++
     (match res with
      | .ok r =>
        [Effect.logTry (outcome_entry args.ping_mode (sys.ts 0 0) (.ok r) none)
           (sys.logOk 0 0)] ++
        warnUnless (sys.logOk 0 0)
          (if args.ping_mode then "Warning: Failed to log ping success"
           else "Warning: Failed to log claude success") ++
        [Effect.println (if args.ping_mode then "Ping completed successfully!"
           else "Command completed successfully!"),
         Effect.println ("Response length: " ++ natStr r.length ++ " characters"),
         Effect.println "Claude Code Schedule by Ian Macalinao - https://ianm.com"]
      | .error e =>
        [Effect.logTry (outcome_entry args.ping_mode (sys.ts 0 0) (.error e) none)
           (sys.logOk 0 0)] ++
        warnUnless (sys.logOk 0 0)
          (if args.ping_mode then "Warning: Failed to log ping error"
           else "Warning: Failed to log claude error")),
     match res with
     | .ok _ => .ok ()
     | .error e => .error e)

/-- `run_loop_mode` from `main.rs` (lines 186–295): dry run prints and
returns `Ok`; otherwise banner, Ctrl+C handler installation (capturing the
PID path), then the endless cycle loop — `none` marks the truncation of
the never-returning loop after `fuel` cycles. -/
def run_loop_mode (args : Args) (sys : Sys) (fuel : Nat) :
    List Effect × Option Unit :=
  if args.dry_run then
    ([Effect.println "Loop mode dry run:",
      Effect.println "Schedule: 7:00, 12:00, 17:00, 22:00, 03:00 (every 5 hours)",
      action_desc args,
      Effect.println ("Log directory: " ++ args.log_dir)], some ())
  else
    ([Effect.println "Claude Code Schedule by Ian Macalinao - Loop Mode",
      Effect.println "Schedule: 7:00, 12:00, 17:00, 22:00, 03:00 (every 5 hours)",
      action_desc args,
      Effect.println ("Log directory: " ++ args.log_dir),
      Effect.println "Press Ctrl+C to stop...\n",
      Effect.spawnCancelLoop args.pid_file] ++
     loopCycles ⟨args.ping_mode, args.message, sys.exec, sys.logOk, sys.ts, sys.waitPrints⟩
       1 fuel,
     none)

/-- `main` from `main.rs`: logger init, optional PID file write, mode
dispatch (loop mode ignores `--time`; single mode parses it, defaulting to
`06:00`, and applies the rollover), then PID cleanup on normal return.
The second component is the process exit status: `some 0` for `Ok`,
`some 1` for an `anyhow` error, `none` when the recurring loop is still
running at truncation.  An early `?`-return (init, PID write, time parse,
single-mode action failure) skips the PID cleanup. -/
def main_model (args : Args) (sys : Sys) (fuel : Nat) : List Effect × Option Nat :=
  let initEs := [Effect.mkLogDir args.log_dir]
  if !sys.initOk then (initEs, some 1)
  else
    let pidEs : List Effect := match args.pid_file with
      | some p => Effect.writeFile p (natStr sys.pid) ::
          (if sys.pidOk then [Effect.println ("PID file written: " ++ p)] else [])
      | none => []
    if args.pid_file.isSome && !sys.pidOk then (initEs ++ pidEs, some 1)
    else if args.loop_mode then
      match run_loop_mode args sys fuel with
      | (es, some _) =>
        (initEs ++ pidEs ++ es ++ cleanup_pid_effects sys.rmOk args.pid_file, some 0)
      | (es, none) => (initEs ++ pidEs ++ es, none)
    else
      match parse_time_hm ((args.time.getD "06:00").data) with
      | none => (initEs ++ pidEs, some 1)
      | some (h, m) =>
        let target := scheduleOnce sys.now (withTime sys.now h m)
        match run_single_mode args sys target with
        | (es, .ok _) =>
          (initEs ++ pidEs ++ es ++ cleanup_pid_effects sys.rmOk args.pid_file, some 0)
        | (es, .error _) => (initEs ++ pidEs ++ es, some 1)

/-! ## Error handling claims -/

theorem stderr_occurs_in_error_text (out : CmdOutput) :
    occursIn out.stderr.data (claude_error_text out).data = true := by
  unfold claude_error_text
  simp only [String.data_append, List.append_assoc]
  exact occursIn_of_occursIn_right _ _ _ (occursIn_of_occursIn_right _ _ _
    (occursIn_of_occursIn_right _ _ _ (occursIn_refl _)))

theorem run_claude_command_error {msg : String}
    {ex : String → List String → Option CmdOutput} {out : CmdOutput}
    (hx : ex "claude" (claude_args msg) = some out)
    (hs : out.success = false) :
    run_claude_command msg ex = .error (claude_error_text out) := by
  unfold run_claude_command
  rw [hx]
  simp [hs]

theorem run_single_mode_error_result (args : Args) (sys : Sys) (target : Nat)
    (e : String) (hdry : args.dry_run = false)
    (hrun : runAction args.ping_mode args.message (sys.exec 0) = .error e) :
    (run_single_mode args sys target).2 = .error e := by
  unfold run_single_mode
  simp [hdry, hrun]

/-- C4: a non-zero exit of the external action yields an error outcome
whose detail contains the captured stderr; the error is terminal in
one-shot mode (the mode function returns it and `main` exits with status
1) but absorbed in recurring mode (the error record and the cycle's end
record are still attempted, and the loop continues with cycle `n + 1`). -/
theorem C4_execution_error_handling :
    (∀ (msg : String) (ex : String → List String → Option CmdOutput) (out : CmdOutput),
      ex "claude" (claude_args msg) = some out → out.success = false →
      run_claude_command msg ex = .error (claude_error_text out) ∧
      occursIn out.stderr.data (claude_error_text out).data = true) ∧
    (∀ (args : Args) (sys : Sys) (target : Nat) (e : String),
      args.dry_run = false →
      runAction args.ping_mode args.message (sys.exec 0) = .error e →
      (run_single_mode args sys target).2 = .error e) ∧
    (∀ (args : Args) (sys : Sys) (fuel : Nat) (e : String),
      args.dry_run = false → args.loop_mode = false → sys.initOk = true →
      (args.pid_file.isSome = true → sys.pidOk = true) →
      (parse_time_hm ((args.time.getD "06:00").data)).isSome = true →
      runAction args.ping_mode args.message (sys.exec 0) = .error e →
      (main_model args sys fuel).2 = some 1) ∧
    (∀ (env : LoopEnv) (n fuel : Nat) (e : String),
      runAction env.ping env.message (env.exec n) = .error e →
      logAttempts (cycleEffects env n) =
        [cycle_start_entry (env.ts n 0) n,
         outcome_entry env.ping (env.ts n 1) (.error e) (some n),
         cycle_end_entry (env.ts n 2) n] ∧
      loopCycles env n (fuel + 1) = cycleEffects env n ++ loopCycles env (n + 1) fuel) := by
  refine ⟨?_, ?_, ?_, ?_⟩
  · intro msg ex out hx hs
    exact ⟨run_claude_command_error hx hs, stderr_occurs_in_error_text out⟩
  · intro args sys target e hdry hrun
    exact run_single_mode_error_result args sys target e hdry hrun
  · intro args sys fuel e hdry hloop hinit hpid htime hrun
    unfold main_model
    rw [hinit]
    rcases hpf : args.pid_file with _ | p
    · simp only [hpf, Option.isSome_none, Bool.false_and, Bool.not_true, if_neg,
        Bool.false_eq_true, not_false_eq_true, hloop]
      rcases htm : parse_time_hm ((args.time.getD "06:00").data) with _ | ⟨h, m⟩
      · rw [htm] at htime
      · simp only [htm]
        rcases hsm : run_single_mode args sys
            (scheduleOnce sys.now (withTime sys.now h m)) with ⟨es, r⟩
        have h2 := run_single_mode_error_result args sys
          (scheduleOnce sys.now (withTime sys.now h m)) e hdry hrun
        rw [hsm] at h2
        simp only at h2
        subst h2
        simp
    · have hpo : sys.pidOk = true := hpid (by rw [hpf]; rfl)
      simp only [hpf, hpo, Option.isSome_some, Bool.not_true, Bool.and_false,
        Bool.false_eq_true, not_false_eq_true, if_neg, hloop]
      rcases htm : parse_time_hm ((args.time.getD "06:00").data) with _ | ⟨h, m⟩
      · rw [htm] at htime
      · simp only [htm]
        rcases hsm : run_single_mode args sys
            (scheduleOnce sys.now (withTime sys.now h m)) with ⟨es, r⟩
        have h2 := run_single_mode_error_result args sys
          (scheduleOnce sys.now (withTime sys.now h m)) e hdry hrun
        rw [hsm] at h2
        simp only at h2
        subst h2
        simp
  · intro env n fuel e hrun
    constructor
    · have h := logAttempts_cycleEffects env n
      rw [hrun] at h
      exact h
    · rw [loopCycles]

/-- Witness for C4 at Scenario E's concrete input: exit status 1 with
stderr `boom` gives an error outcome whose detail contains `boom`. -/
theorem C4_execution_error_handling_witness :
    run_claude_command "hello" (fun _ _ => some ⟨false, some 1, "", "boom"⟩) =
      .error (claude_error_text ⟨false, some 1, "", "boom"⟩) ∧
    occursIn ("boom").data (claude_error_text ⟨false, some 1, "", "boom"⟩).data = true :=
  C4_execution_error_handling.1 "hello" (fun _ _ => some ⟨false, some 1, "", "boom"⟩)
    ⟨false, some 1, "", "boom"⟩ rfl rfl

/-! ## Dry-run claims -/

theorem isExec_action_desc (args : Args) : isExecEffect (action_desc args) = false := by
  unfold action_desc
  split <;> rfl

theorem logAttempts_cons_action_desc (args : Args) (l : List Effect) :
    logAttempts (action_desc args :: l) = logAttempts l := by
  unfold action_desc
  split <;> rfl

theorem any_isExec_cleanup (rmOk : Bool) (pf : Option String) :
    (cleanup_pid_effects rmOk pf).any isExecEffect = false := by
  cases pf <;> cases rmOk <;> rfl

theorem logAttempts_cleanup (rmOk : Bool) (pf : Option String) :
    logAttempts (cleanup_pid_effects rmOk pf) = [] := by
  cases pf <;> cases rmOk <;> rfl

theorem run_loop_mode_dry (args : Args) (sys : Sys) (fuel : Nat)
    (hdry : args.dry_run = true) :
    run_loop_mode args sys fuel =
      ([Effect.println "Loop mode dry run:",
        Effect.println "Schedule: 7:00, 12:00, 17:00, 22:00, 03:00 (every 5 hours)",
        action_desc args,
        Effect.println ("Log directory: " ++ args.log_dir)], some ()) := by
  unfold run_loop_mode
  rw [hdry]
  rfl

theorem run_single_mode_dry (args : Args) (sys : Sys) (target : Nat)
    (hdry : args.dry_run = true) :
    run_single_mode args sys target =
      ([Effect.println ("Would run at: " ++ fmtInstant target),
        action_desc args,
        Effect.println ("Log directory: " ++ args.log_dir)], .ok ()) := by
  unfold run_single_mode
  rw [hdry]
  rfl

/-- C9 counterexample: the claim says every argument combination with the
dry-run flag set exits with status 0, but in single mode `main` parses
`--time` *before* the dry-run branch is reached: with `--time 25:00` and
`--dry-run` the process exits with status 1 (and the preview is never
shown). -/
theorem C9_dry_run_counterexample :
    (main_model ⟨some "25:00", "m", true, false, "log", false, none⟩
        ⟨fun _ _ _ => none, true, true, true, 0, 0, fun _ _ => true, fun _ _ => "",
         fun _ => []⟩ 0).2 = some 1 := by
  rfl

theorem isExec_println (s : String) : isExecEffect (Effect.println s) = false := rfl

theorem isExec_printStr (s : String) : isExecEffect (Effect.printStr s) = false := rfl

theorem isExec_mkLogDir (p : String) : isExecEffect (Effect.mkLogDir p) = false := rfl

theorem isExec_writeFile (p c : String) : isExecEffect (Effect.writeFile p c) = false := rfl

theorem logAttempts_cons_mkLogDir (p : String) (l : List Effect) :
    logAttempts (Effect.mkLogDir p :: l) = logAttempts l := rfl

theorem logAttempts_cons_writeFile (p c : String) (l : List Effect) :
    logAttempts (Effect.writeFile p c :: l) = logAttempts l := rfl

/-- C9 (amended): with the dry-run flag set, provided setup succeeds —
the log directory is initialized, the PID file (when requested) is
written, and in single mode the `--time` argument (default `06:00`)
parses — both mode paths return without invoking the external command and
without attempting any log write, and the process exits with status 0.
With a malformed `--time` in single mode the process instead exits
non-zero before the preview (still without invoking or logging). -/
theorem C9_dry_run_amended (args : Args) (sys : Sys) (fuel : Nat)
    (hdry : args.dry_run = true)
    (hinit : sys.initOk = true)
    (hpid : args.pid_file.isSome = true → sys.pidOk = true)
    (htime : args.loop_mode = false →
      (parse_time_hm ((args.time.getD "06:00").data)).isSome = true) :
    (main_model args sys fuel).1.any isExecEffect = false ∧
    logAttempts (main_model args sys fuel).1 = [] ∧
    (main_model args sys fuel).2 = some 0 := by
  unfold main_model
  rw [hinit]
  rcases hpf : args.pid_file with _ | p
  · simp only [hpf, Option.isSome_none, Bool.false_and, Bool.not_true,
      Bool.false_eq_true, not_false_eq_true, if_neg]
    rcases hlm : args.loop_mode with _ | _
    · simp only [Bool.false_eq_true, if_neg, not_false_eq_true]
      rcases htm : parse_time_hm ((args.time.getD "06:00").data) with _ | ⟨h, m⟩
      · have hsome := htime hlm
        rw [htm] at hsome
        exact absurd hsome (by simp)
      · simp only [htm, run_single_mode_dry args sys _ hdry]
        refine ⟨?_, ?_, ?_⟩
        · simp only [List.any_append, List.any_cons, List.any_nil, isExec_println,
            isExec_mkLogDir, isExec_action_desc, any_isExec_cleanup, Bool.or_false, Bool.false_or]
        · simp only [logAttempts_append, logAttempts_nil, logAttempts_cons_println,
            logAttempts_cons_mkLogDir, logAttempts_cons_action_desc,
            logAttempts_cleanup, List.append_nil, List.nil_append]
        · trivial
    · simp only [eq_self_iff_true, if_true, run_loop_mode_dry args sys fuel hdry]
      refine ⟨?_, ?_, ?_⟩
      · simp only [List.any_append, List.any_cons, List.any_nil, isExec_println,
          isExec_mkLogDir, isExec_action_desc, any_isExec_cleanup, Bool.or_false, Bool.false_or]
      · simp only [logAttempts_append, logAttempts_nil, logAttempts_cons_println,
          logAttempts_cons_mkLogDir, logAttempts_cons_action_desc,
          logAttempts_cleanup, List.append_nil, List.nil_append]
      · trivial
  · have hpo : sys.pidOk = true := hpid (by rw [hpf]; rfl)
    simp only [hpf, hpo, Option.isSome_some, Bool.not_true, Bool.and_false,
      Bool.false_eq_true, not_false_eq_true, if_neg, reduceIte]
    rcases hlm : args.loop_mode with _ | _
    · simp only [Bool.false_eq_true, if_neg, not_false_eq_true]
      rcases htm : parse_time_hm ((args.time.getD "06:00").data) with _ | ⟨h, m⟩
      · have hsome := htime hlm
        rw [htm] at hsome
        exact absurd hsome (by simp)
      · simp only [htm, run_single_mode_dry args sys _ hdry]
        refine ⟨?_, ?_, ?_⟩
        · simp only [List.any_append, List.any_cons, List.any_nil, isExec_println,
            isExec_mkLogDir, isExec_writeFile, isExec_action_desc, any_isExec_cleanup, Bool.or_false,
            Bool.false_or]
        · simp only [logAttempts_append, logAttempts_nil, logAttempts_cons_println,
            logAttempts_cons_mkLogDir, logAttempts_cons_writeFile,
            logAttempts_cons_action_desc, logAttempts_cleanup, List.append_nil,
            List.nil_append]
        · trivial
    · simp only [eq_self_iff_true, if_true, run_loop_mode_dry args sys fuel hdry]
      refine ⟨?_, ?_, ?_⟩
      · simp only [List.any_append, List.any_cons, List.any_nil, isExec_println,
          isExec_mkLogDir, isExec_writeFile, isExec_action_desc, any_isExec_cleanup, Bool.or_false,
          Bool.false_or]
      · simp only [logAttempts_append, logAttempts_nil, logAttempts_cons_println,
          logAttempts_cons_mkLogDir, logAttempts_cons_writeFile,
          logAttempts_cons_action_desc, logAttempts_cleanup, List.append_nil,
          List.nil_append]
      · trivial

/-- Witness for C9 (amended) at a concrete argument set: dry run in single
mode with the default time, no PID file, fuel 0. -/
theorem C9_dry_run_amended_witness :
    ((main_model ⟨none, "m", true, false, "log", false, none⟩
        ⟨fun _ _ _ => none, true, true, true, 0, 0, fun _ _ => true, fun _ _ => "",
         fun _ => []⟩ 0).1.any isExecEffect = false) ∧
    logAttempts (main_model ⟨none, "m", true, false, "log", false, none⟩
        ⟨fun _ _ _ => none, true, true, true, 0, 0, fun _ _ => true, fun _ _ => "",
         fun _ => []⟩ 0).1 = [] ∧
    (main_model ⟨none, "m", true, false, "log", false, none⟩
        ⟨fun _ _ _ => none, true, true, true, 0, 0, fun _ _ => true, fun _ _ => "",
         fun _ => []⟩ 0).2 = some 0 :=
  C9_dry_run_amended _ _ 0 rfl rfl (fun h => by simp at h) (fun _ => by decide)
